import Mathlib

set_option maxRecDepth 10000

/-!
Verification of the LLM-response recovery logic of the `all-files` backend.

The repository's "Response Recovery Parser" is the parsing core of
`OpenRouterClient.save_project_files` (src/openrouter_client.py, lines 150-236),
together with the JSON-extraction-and-fallback logic of
`MoonshotClient.send_prd_request` (src/moonshot_client.py, lines 145-176) and the
path-history bookkeeping of `ConfigManager.add_path_to_history`
(src/config_manager.py, lines 106-126).

This file embeds that Python code shallowly:

* Python `str` values are `List Char`; JSON values are `PyJson`.
* `json.loads` / `json.dumps` (CPython's strict decoder and its
  `ensure_ascii` encoder, both with default and `indent=2` settings) are
  modelled by `jsonLoads`, `jsonDumps` and `jsonDumpsIndent`.
* The three `re` substitutions and four `re` searches used by the recovery
  code are modelled by dedicated scanners (`fixUnterm`, `commaClose`,
  `fenceGroups`, `nameSearch`, `filesSearch`, `searchJsonFence`,
  `searchBraceSpan`) that implement the leftmost-match semantics of the
  specific patterns appearing in the source.
* Fallible Python code (exceptions caught by the surrounding handlers)
  returns `Option`.

Functions that are not structurally recursive take an explicit fuel
argument so that every definition is executable by kernel reduction; the
fuel supplied by the wrappers strictly exceeds the number of steps any
input can take, so it never changes observable behaviour.
-/

/-- A Python JSON value as produced by `json.loads`.  Numbers keep their
source lexeme (none of the verified code inspects numeric values, and this
avoids modelling CPython float semantics); object fields are kept in
insertion order, as CPython dicts do. -/
inductive PyJson where
  | null
  | bool (b : Bool)
  | num (lexeme : List Char)
  | str (s : List Char)
  | arr (items : List PyJson)
  | obj (fields : List (List Char × PyJson))

/-- JSON whitespace accepted by CPython's decoder: space, tab, newline,
carriage return. -/
def isJsonWs (c : Char) : Bool :=
  c = ' ' ∨ c = '\t' ∨ c = '\n' ∨ c = '\r'

/-- Drop leading JSON whitespace. -/
def skipWs : List Char → List Char
  | [] => []
  | c :: tl => if isJsonWs c then skipWs tl else c :: tl

/-- Value of one hexadecimal digit, as accepted in a `\uXXXX` escape. -/
def hexDigitVal (c : Char) : Option Nat :=
  if '0' ≤ c ∧ c ≤ '9' then some (c.toNat - 48)
  else if 'a' ≤ c ∧ c ≤ 'f' then some (c.toNat - 97 + 10)
  else if 'A' ≤ c ∧ c ≤ 'F' then some (c.toNat - 65 + 10)
  else none

/-- Value of a four-hex-digit group. -/
def hex4Val (a b c d : Char) : Option Nat :=
  match hexDigitVal a, hexDigitVal b, hexDigitVal c, hexDigitVal d with
  | some va, some vb, some vc, some vd => some (((va * 16 + vb) * 16 + vc) * 16 + vd)
  | _, _, _, _ => none

/-- The single-character escapes accepted by CPython's strict decoder. -/
def unescapeChar : Char → Option Char
  | '"' => some '"'
  | '\\' => some '\\'
  | '/' => some '/'
  | 'b' => some '\x08'
  | 'f' => some '\x0c'
  | 'n' => some '\n'
  | 'r' => some '\r'
  | 't' => some '\t'
  | _ => none

/-- Prepend a character to the content of a string-body parse result. -/
def consBody (c : Char) : Option (List Char × List Char) → Option (List Char × List Char)
  | some (s, t) => some (c :: s, t)
  | none => none

/-- Body of a JSON string after the opening quote, per CPython's
`py_scanstring` with `strict=True`: raw control characters are rejected,
`\uXXXX` escapes are decoded, and a high surrogate directly followed by a
`\uXXXX` low surrogate is combined into one code point.  (A lone surrogate
is kept by CPython inside the `str`; `Char.ofNat` maps such invalid scalar
values to `'\x00'` — no verified property depends on lone surrogates.)
Every step consumes at least one character, so the wrapper's fuel of
`length + 1` never runs out.  Returns the decoded content and the
remainder after the closing quote. -/
def parseStringBodyF : Nat → List Char → Option (List Char × List Char)
  | 0, _ => none
  | f + 1, l =>
    match l with
    | [] => none
    | '"' :: r => some ([], r)
    | '\\' :: 'u' :: a :: b :: c :: d :: r =>
      (match hex4Val a b c d with
       | none => none
       | some n =>
         if 0xd800 ≤ n ∧ n ≤ 0xdbff then
           match r with
           | '\\' :: 'u' :: a2 :: b2 :: c2 :: d2 :: r2 =>
             (match hex4Val a2 b2 c2 d2 with
              | none => none
              | some m =>
                if 0xdc00 ≤ m ∧ m ≤ 0xdfff then
                  consBody (Char.ofNat (0x10000 + (n - 0xd800) * 0x400 + (m - 0xdc00)))
                    (parseStringBodyF f r2)
                else consBody (Char.ofNat n) (parseStringBodyF f r))
           | _ => consBody (Char.ofNat n) (parseStringBodyF f r)
         else consBody (Char.ofNat n) (parseStringBodyF f r))
    | '\\' :: e :: r =>
      (match unescapeChar e with
       | some c => consBody c (parseStringBodyF f r)
       | none => none)
    | c :: r =>
      if c.toNat < 0x20 then none
      else consBody c (parseStringBodyF f r)

/-- String body parse with always-sufficient fuel. -/
def parseStringBody (l : List Char) : Option (List Char × List Char) :=
  parseStringBodyF (l.length + 1) l

/-- Decimal digit test. -/
def isDigitCh (c : Char) : Bool := '0' ≤ c ∧ c ≤ '9'

/-- Longest digit run at the head of the input and the remainder. -/
def takeDigits : List Char → List Char × List Char
  | [] => ([], [])
  | c :: tl =>
    if isDigitCh c then
      let p := takeDigits tl
      (c :: p.1, p.2)
    else ([], c :: tl)

/-- The lexeme matched by CPython's `NUMBER_RE`, i.e.
`(-?(?:0|[1-9]\d+|[1-9]))` with optional `(\.\d+)` and `([eE][-+]?\d+)`
groups; the optional groups are dropped when incomplete, exactly as the
regex backtracks.  Returns the lexeme and the remainder. -/
def parseNumLex (l : List Char) : Option (List Char × List Char) :=
  let sp : List Char × List Char := match l with
    | '-' :: r => (['-'], r)
    | _ => ([], l)
  match sp.2 with
  | '0' :: r => some (numTail (sp.1 ++ ['0']) r)
  | c :: r =>
    if isDigitCh c then
      let p := takeDigits r
      some (numTail (sp.1 ++ c :: p.1) p.2)
    else none
  | [] => none
where
  /-- Optional fraction and exponent groups after the integer part. -/
  numTail (intPart : List Char) (r : List Char) : List Char × List Char :=
    let fr : List Char × List Char := match r with
      | '.' :: r2 =>
        match takeDigits r2 with
        | ([], _) => ([], r)
        | (ds, r3) => ('.' :: ds, r3)
      | _ => ([], r)
    let ex : List Char × List Char := match fr.2 with
      | 'e' :: r4 => expTail 'e' r4 fr.2
      | 'E' :: r4 => expTail 'E' r4 fr.2
      | _ => ([], fr.2)
    (intPart ++ fr.1 ++ ex.1, ex.2)
  /-- Exponent group `[eE][-+]?\d+`, dropped when no digits follow. -/
  expTail (e : Char) (r4 orig : List Char) : List Char × List Char :=
    let sg : List Char × List Char := match r4 with
      | '+' :: r5 => (['+'], r5)
      | '-' :: r5 => (['-'], r5)
      | _ => ([], r4)
    match takeDigits sg.2 with
    | ([], _) => ([], orig)
    | (ds, r6) => (e :: sg.1 ++ ds, r6)

/-- Insert a key into an object's field list the way CPython's `dict`
does on duplicate keys: replace the value in place, else append. -/
def insKey : List (List Char × PyJson) → List Char → PyJson → List (List Char × PyJson)
  | [], k, v => [(k, v)]
  | (k0, v0) :: tl, k, v =>
    if k0 = k then (k0, v) :: tl else (k0, v0) :: insKey tl k v

mutual

/-- One JSON value at the head of the input (whitespace already skipped by
the caller), per CPython's `py_make_scanner` dispatch: string, object,
array, `null`/`true`/`false`, number, `NaN`/`Infinity`/`-Infinity`.  The
fuel decreases on every nested call; the wrapper `jsonLoads` supplies more
fuel than any input can consume. -/
def parseValueF : Nat → List Char → Option (PyJson × List Char)
  | 0, _ => none
  | f + 1, l =>
    match l with
    | '"' :: r =>
      match parseStringBody r with
      | some (s, r1) => some (.str s, r1)
      | none => none
    | '{' :: r =>
      (match skipWs r with
       | '}' :: r1 => some (.obj [], r1)
       | r1 => parseMembersF f [] r1)
    | '[' :: r =>
      (match skipWs r with
       | ']' :: r1 => some (.arr [], r1)
       | r1 => parseElemsF f [] r1)
    | 'n' :: 'u' :: 'l' :: 'l' :: r => some (.null, r)
    | 't' :: 'r' :: 'u' :: 'e' :: r => some (.bool true, r)
    | 'f' :: 'a' :: 'l' :: 's' :: 'e' :: r => some (.bool false, r)
    | 'N' :: 'a' :: 'N' :: r => some (.num ['N', 'a', 'N'], r)
    | 'I' :: 'n' :: 'f' :: 'i' :: 'n' :: 'i' :: 't' :: 'y' :: r =>
      some (.num ['I', 'n', 'f', 'i', 'n', 'i', 't', 'y'], r)
    | '-' :: 'I' :: 'n' :: 'f' :: 'i' :: 'n' :: 'i' :: 't' :: 'y' :: r =>
      some (.num ['-', 'I', 'n', 'f', 'i', 'n', 'i', 't', 'y'], r)
    | _ =>
      match parseNumLex l with
      | some (lex, r) => some (.num lex, r)
      | none => none

/-- Comma-separated array elements (first element at the head, whitespace
skipped), accumulating in order, up to the closing bracket. -/
def parseElemsF : Nat → List PyJson → List Char → Option (PyJson × List Char)
  | 0, _, _ => none
  | f + 1, acc, l =>
    match parseValueF f l with
    | none => none
    | some (v, r) =>
      match skipWs r with
      | ',' :: r1 => parseElemsF f (acc ++ [v]) (skipWs r1)
      | ']' :: r1 => some (.arr (acc ++ [v]), r1)
      | _ => none

/-- Comma-separated object members (first key's quote at the head), up to
the closing brace. -/
def parseMembersF : Nat → List (List Char × PyJson) → List Char → Option (PyJson × List Char)
  | 0, _, _ => none
  | f + 1, acc, l =>
    match l with
    | '"' :: r =>
      match parseStringBody r with
      | none => none
      | some (k, r1) =>
        match skipWs r1 with
        | ':' :: r2 =>
          match parseValueF f (skipWs r2) with
          | none => none
          | some (v, r3) =>
            match skipWs r3 with
            | ',' :: r4 => parseMembersF f (insKey acc k v) (skipWs r4)
            | '}' :: r4 => some (.obj (insKey acc k v), r4)
            | _ => none
        | _ => none
    | _ => none

end

/-- `json.loads`: skip leading whitespace, parse one value, and reject
trailing non-whitespace ("Extra data").  `none` models a raised
`JSONDecodeError`/`ValueError`.  The fuel `2 * length + 2` exceeds the
number of nested calls any parse can make, since every unit of fuel spent
corresponds to at least half a consumed character. -/
def jsonLoads (l : List Char) : Option PyJson :=
  match parseValueF (2 * l.length + 2) (skipWs l) with
  | some (v, r) => if skipWs r = [] then some v else none
  | none => none

/-- Lowercase hexadecimal digit, as CPython's encoder emits in `\uXXXX`. -/
def hexDigitCh (n : Nat) : Char :=
  if n < 10 then Char.ofNat (48 + n) else Char.ofNat (87 + n)

/-- A `\uXXXX` escape for a code unit below `0x10000`. -/
def uEscape (n : Nat) : List Char :=
  ['\\', 'u', hexDigitCh (n / 4096 % 16), hexDigitCh (n / 256 % 16),
   hexDigitCh (n / 16 % 16), hexDigitCh (n % 16)]

/-- One character as CPython's `json.dumps` (default `ensure_ascii=True`)
emits it: the short escapes for quote, backslash and the five named
controls, printable ASCII verbatim, `\uXXXX` otherwise, with a surrogate
pair for code points above `0xFFFF`. -/
def escapeChar (c : Char) : List Char :=
  if c = '"' then ['\\', '"']
  else if c = '\\' then ['\\', '\\']
  else if c = '\x08' then ['\\', 'b']
  else if c = '\x0c' then ['\\', 'f']
  else if c = '\n' then ['\\', 'n']
  else if c = '\r' then ['\\', 'r']
  else if c = '\t' then ['\\', 't']
  else if 0x20 ≤ c.toNat ∧ c.toNat ≤ 0x7e then [c]
  else if c.toNat < 0x10000 then uEscape c.toNat
  else uEscape (0xd800 + (c.toNat - 0x10000) / 0x400) ++
       uEscape (0xdc00 + (c.toNat - 0x10000) % 0x400)

/-- A whole string, escaped character by character. -/
def escapeString : List Char → List Char
  | [] => []
  | c :: tl => escapeChar c ++ escapeString tl

/-- A rendered JSON string literal: quote, escaped content, quote. -/
def strQ (s : List Char) : List Char := '"' :: (escapeString s ++ ['"'])

mutual

/-- `json.dumps` with default separators `(', ', ': ')`. -/
def dumpValC : PyJson → List Char
  | .null => ("null").toList
  | .bool true => ("true").toList
  | .bool false => ("false").toList
  | .num lex => lex
  | .str s => strQ s
  | .arr [] => ['[', ']']
  | .arr (x :: xs) => '[' :: (dumpValC x ++ dumpItemsC xs ++ [']'])
  | .obj [] => ['{', '}']
  | .obj ((k, v0) :: ms) =>
    '{' :: (strQ k ++ ':' :: ' ' :: (dumpValC v0 ++ dumpFieldsC ms ++ ['}']))

/-- Remaining array items, each preceded by `', '`. -/
def dumpItemsC : List PyJson → List Char
  | [] => []
  | x :: xs => ',' :: ' ' :: (dumpValC x ++ dumpItemsC xs)

/-- Remaining object members, each preceded by `', '`. -/
def dumpFieldsC : List (List Char × PyJson) → List Char
  | [] => []
  | (k, v) :: ms => ',' :: ' ' :: (strQ k ++ ':' :: ' ' :: (dumpValC v ++ dumpFieldsC ms))

end

/-- `json.dumps(v)` with CPython defaults. -/
def jsonDumps (v : PyJson) : List Char := dumpValC v

/-- A newline followed by `n` spaces, the indentation unit of
`json.dumps(..., indent=2)`. -/
def nlInd (n : Nat) : List Char := '\n' :: List.replicate n ' '

mutual

/-- `json.dumps` with `indent=2` (item separator `','`, key separator
`': '`, children indented two spaces deeper). -/
def dumpValI : Nat → PyJson → List Char
  | _, .null => ("null").toList
  | _, .bool true => ("true").toList
  | _, .bool false => ("false").toList
  | _, .num lex => lex
  | _, .str s => strQ s
  | _, .arr [] => ['[', ']']
  | ind, .arr (x :: xs) =>
    '[' :: (nlInd (ind + 2) ++ dumpValI (ind + 2) x ++ dumpItemsI (ind + 2) xs ++
            nlInd ind ++ [']'])
  | _, .obj [] => ['{', '}']
  | ind, .obj ((k, v0) :: ms) =>
    '{' :: (nlInd (ind + 2) ++ strQ k ++ ':' :: ' ' :: (dumpValI (ind + 2) v0 ++
            dumpFieldsI (ind + 2) ms ++ nlInd ind ++ ['}']))

/-- Remaining array items at indent `ind`. -/
def dumpItemsI : Nat → List PyJson → List Char
  | _, [] => []
  | ind, x :: xs => ',' :: (nlInd ind ++ dumpValI ind x ++ dumpItemsI ind xs)

/-- Remaining object members at indent `ind`. -/
def dumpFieldsI : Nat → List (List Char × PyJson) → List Char
  | _, [] => []
  | ind, (k, v) :: ms =>
    ',' :: (nlInd ind ++ strQ k ++ ':' :: ' ' :: (dumpValI ind v ++ dumpFieldsI ind ms))

end

/-- `json.dumps(v, indent=2)`. -/
def jsonDumpsIndent (v : PyJson) : List Char := dumpValI 0 v

example : jsonLoads (("[1, 2]").toList) =
    some (.arr [.num ['1'], .num ['2']]) := rfl

example : jsonLoads (("\x7b\"a\": \"b\\n\", \"c\": []\x7d").toList) =
    some (.obj [(['a'], .str ['b', '\n']), (['c'], .arr [])]) := rfl

example : jsonLoads (("\x7b\"a\": 1\x7d x").toList) = none := rfl

example : jsonDumps (.obj [(['a'], .str ['b']), (['c'], .arr [.null])]) =
    ("\x7b\"a\": \"b\", \"c\": [null]\x7d").toList := rfl

/-! ## The OpenRouter recovery routine

`OpenRouterClient.save_project_files` (src/openrouter_client.py).  The
module imports `requests`, `json`, `os`, `datetime` (and optionally
`tiktoken` / `config`) — `re` is **not** imported at module level.  The
function body contains `import re` at line 182, inside the
`if not project_data:` block of Method 2, which makes `re` a local name of
the whole function; evaluating `re.sub` at line 160 (Method 1) therefore
raises `UnboundLocalError`, which the outer `except Exception` handler at
line 290 converts into `return False`. -/

/-- Whitespace stripped by Python's `str.strip()` (ASCII part; the inputs
considered here contain no Unicode spaces). -/
def isPyStrWs (c : Char) : Bool :=
  c = ' ' ∨ c = '\t' ∨ c = '\n' ∨ c = '\r' ∨ c = '\x0b' ∨ c = '\x0c'

/-- `content.strip()`. -/
def pyStrip (l : List Char) : List Char :=
  ((l.dropWhile isPyStrWs).reverse.dropWhile isPyStrWs).reverse

/-- `content.strip().startswith('{')` (line 154). -/
def startsWithBrace (l : List Char) : Bool :=
  match pyStrip l with
  | '{' :: _ => true
  | _ => false

/-- Characters matched by `\s` in the source's patterns (ASCII part). -/
def isReWs (c : Char) : Bool :=
  c = ' ' ∨ c = '\t' ∨ c = '\n' ∨ c = '\r' ∨ c = '\x0b' ∨ c = '\x0c'

/-- Walk of the lazy repetition `(?:[^"\\]|\\.)*?` of the pattern
`("(?:[^"\\]|\\.)*?)(?<!\\)$` (lines 160/192, `re.MULTILINE`), starting
just after a `"`.  `last` is the character before the current position
(for the `(?<!\\)` look-behind).  Returns the number of characters the
repetition consumes up to the first admissible line end (`$` = before a
`'\n'` or at end of input), or `none` when no match starts here: the walk
dies at an unescaped `"`, at a backslash before a newline or before the
end, or at an end position whose look-behind fails with nothing left to
consume. -/
def quoteWalk : Char → List Char → Option Nat
  | last, [] => if last = '\\' then none else some 0
  | last, c :: tl =>
    if c = '\n' ∧ ¬ last = '\\' then some 0
    else if c = '"' then none
    else if c = '\\' then
      match tl with
      | d :: tl2 => if d = '\n' then none else (quoteWalk d tl2).map (· + 2)
      | [] => none
    else (quoteWalk c tl).map (· + 1)

/-- `re.sub(r'("(?:[^"\\]|\\.)*?)(?<!\\)$', r'\1"', ..., flags=re.MULTILINE)`:
scan left to right; at each `"` from which the repetition reaches a line
end, emit the matched span followed by an inserted `"` and resume after
the match; otherwise copy one character.  Fuel `length + 1` suffices since
every step consumes at least one character. -/
def fixUntermAux : Nat → List Char → List Char
  | 0, l => l
  | _, [] => []
  | f + 1, c :: tl =>
    if c = '"' then
      match quoteWalk '"' tl with
      | some k => c :: (tl.take k ++ '"' :: fixUntermAux f (tl.drop k))
      | none => c :: fixUntermAux f tl
    else c :: fixUntermAux f tl

/-- The unterminated-string fix (lines 160/192). -/
def fixUnterm (l : List Char) : List Char := fixUntermAux (l.length + 1) l

/-- `re.sub(r',\s*}', '}', ...)` resp. `re.sub(r',\s*\]', ']', ...)`
(lines 163-164/195-196): each comma followed by whitespace and `close` is
replaced by `close`; a comma not followed that way is copied and scanning
resumes at the next character. -/
def commaCloseAux (close : Char) : Nat → List Char → List Char
  | 0, l => l
  | _, [] => []
  | f + 1, c :: tl =>
    if c = ',' then
      match tl.dropWhile isReWs with
      | d :: rest =>
        if d = close then close :: commaCloseAux close f rest
        else c :: commaCloseAux close f tl
      | [] => c :: commaCloseAux close f tl
    else c :: commaCloseAux close f tl

/-- Trailing-comma removal before `close`. -/
def commaClose (close : Char) (l : List Char) : List Char :=
  commaCloseAux close (l.length + 1) l

/-- `fixed_content.count(c)`. -/
def countCh (c : Char) (l : List Char) : Nat := l.count c

/-- Lines 166-169: append `count('{') - count('}')` closing braces when
positive (Nat subtraction is zero otherwise, matching the `> 0` guard). -/
def closeBraces (l : List Char) : List Char :=
  l ++ List.replicate (countCh '{' l - countCh '}' l) '}'

/-- Lines 171-173: append the missing closing brackets, counted on the
text that already received the closing braces. -/
def closeBrackets (l : List Char) : List Char :=
  l ++ List.replicate (countCh '[' l - countCh ']' l) ']'

/-- The whole stage-1/stage-2 repair pipeline (lines 157-173 = 189-205):
unterminated-string fix, trailing-comma removal before `}` then `]`,
closing braces, closing brackets — in that order. -/
def repairJson (l : List Char) : List Char :=
  closeBrackets (closeBraces (commaClose ']' (commaClose '}' (fixUnterm l))))

/-- Is `pat` an initial segment of the input? -/
def leadsWith : List Char → List Char → Bool
  | [], _ => true
  | _ :: _, [] => false
  | p :: ps, c :: cs => p = c ∧ leadsWith ps cs

/-- First occurrence of `pat`: returns the text before it and the suffix
starting at it. -/
def findAt (pat : List Char) : List Char → Option (List Char × List Char)
  | [] => if leadsWith pat [] then some ([], []) else none
  | c :: tl =>
    if leadsWith pat (c :: tl) then some ([], c :: tl)
    else
      match findAt pat tl with
      | some (a, b) => some (c :: a, b)
      | none => none

/-- Strip trailing `\s` characters (the `\s*` before the closing fence). -/
def dropTrailWs (l : List Char) : List Char := (l.reverse.dropWhile isReWs).reverse

/-- Three backticks. -/
def ticks : List Char := ("```").toList

/-- The optional `json` tag. -/
def jsonTag : List Char := ("json").toList

/-- `re.findall(r'```(?:json)?\s*([\s\S]*?)\s*```', content)` (line 184),
and with `req = true` the search pattern `r'```json\s*([\s\S]*?)\s*```'`
of src/moonshot_client.py line 150.  A match starts at a literal triple
backtick; the greedy `(?:json)?` consumes a `json` tag when present (with
`req = true` its absence makes the start fail, and the scan resumes one
character further); the greedy first `\s*` consumes the maximal
whitespace run; the lazy group then ends at the first later triple
backtick minus the whitespace run before it.  When no closing fence
exists after the group start, no match can start anywhere later either,
so the scan ends. -/
def fenceAux (req : Bool) : Nat → List Char → List (List Char)
  | 0, _ => []
  | f + 1, l =>
    match findAt ticks l with
    | none => []
    | some (_, fm) =>
      let afterOpen := fm.drop 3
      if req && !leadsWith jsonTag afterOpen then fenceAux req f (fm.drop 1)
      else
        let afterTag := if leadsWith jsonTag afterOpen then afterOpen.drop 4 else afterOpen
        let g0 := afterTag.dropWhile isReWs
        match findAt ticks g0 with
        | none => []
        | some (mid, fromClose) => dropTrailWs mid :: fenceAux req f (fromClose.drop 3)

/-- All fenced groups in scan order. -/
def fenceGroups (req : Bool) (l : List Char) : List (List Char) :=
  fenceAux req (l.length + 1) l

/-- Drop leading `\s` characters. -/
def skipReWs (l : List Char) : List Char := l.dropWhile isReWs

/-- Not a double quote. -/
def notQuote (c : Char) : Bool := c != '"'

/-- The literal `"project_name"` of the pattern at line 216. -/
def pnLit : List Char := ("\"project_name\"").toList

/-- Continuation of `r'"project_name"\s*:\s*"([^"]+)"'` after the literal:
whitespace, colon, whitespace, quote, then at least one non-quote
character up to a closing quote. -/
def nameAttempt (l : List Char) : Option (List Char) :=
  match skipReWs l with
  | ':' :: r2 =>
    (match skipReWs r2 with
     | '"' :: r3 =>
       (match r3.dropWhile notQuote with
        | _ :: _ => if r3.takeWhile notQuote = [] then none else some (r3.takeWhile notQuote)
        | [] => none)
     | _ => none)
  | _ => none

/-- `re.search(r'"project_name"\s*:\s*"([^"]+)"', content)` (line 216):
first position where the whole pattern matches; on a failed attempt the
scan resumes one character further. -/
def nameSearchAux : List Char → Option (List Char)
  | [] => none
  | c :: tl =>
    if leadsWith pnLit (c :: tl) then
      match nameAttempt ((c :: tl).drop 14) with
      | some g => some g
      | none => nameSearchAux tl
    else nameSearchAux tl

/-- The `project_name` regex search. -/
def nameSearch (l : List Char) : Option (List Char) := nameSearchAux l

/-- The text before the last occurrence of `target`, or `none`. -/
def lastSplitBefore (target : Char) (l : List Char) : Option (List Char) :=
  match l.reverse.dropWhile (fun c => c != target) with
  | _ :: revBody => some revBody.reverse
  | [] => none

/-- The literal `"files"` of the pattern at line 220. -/
def filesLit : List Char := ("\"files\"").toList

/-- Continuation of `r'"files"\s*:\s*\[([\s\S]+)\]'` after the literal:
whitespace, colon, whitespace, `[`, then the greedy group runs to the
last `]` of the remaining text and must be nonempty. -/
def filesAttempt (l : List Char) : Option (List Char) :=
  match skipReWs l with
  | ':' :: r =>
    (match skipReWs r with
     | '[' :: r2 =>
       (match lastSplitBefore ']' r2 with
        | some body => if body = [] then none else some body
        | none => none)
     | _ => none)
  | _ => none

/-- `re.search(r'"files"\s*:\s*\[([\s\S]+)\]', content)` (line 220). -/
def filesSearchAux : List Char → Option (List Char)
  | [] => none
  | c :: tl =>
    if leadsWith filesLit (c :: tl) then
      match filesAttempt ((c :: tl).drop 7) with
      | some g => some g
      | none => filesSearchAux tl
    else filesSearchAux tl

/-- The `files` array-body regex search. -/
def filesSearch (l : List Char) : Option (List Char) := filesSearchAux l

/-- Python truthiness of a float built from a JSON number lexeme: zero iff
the mantissa has no nonzero digit (`NaN` and the infinities are truthy). -/
def numTruthy (lex : List Char) : Bool :=
  match lex with
  | 'N' :: _ => true
  | 'I' :: _ => true
  | '-' :: 'I' :: _ => true
  | _ => (lex.takeWhile (fun c => c != 'e' && c != 'E')).any (fun c => '1' ≤ c && c ≤ '9')

/-- Python truthiness of a `json.loads` result, as tested by the
`if not project_data:` guards at lines 181, 214 and 234. -/
def pyTruthy : PyJson → Bool
  | .null => false
  | .bool b => b
  | .num lex => numTruthy lex
  | .str s => !s.isEmpty
  | .arr es => !es.isEmpty
  | .obj ms => !ms.isEmpty

/-- Method 1 (lines 154-178): repair, then `json.loads`.  (Reachable only
when `re` is importable at line 160, i.e. not in the shipped code.) -/
def method1 (content : List Char) : Option PyJson := jsonLoads (repairJson content)

/-- The Method-2 loop (lines 186-211): first fenced block whose repaired
text parses (`break` fires on any parse success, truthy or not). -/
def firstParsed : List (List Char) → Option PyJson
  | [] => none
  | m :: ms =>
    match jsonLoads (repairJson m) with
    | some v => some v
    | none => firstParsed ms

/-- Method 2 (lines 181-211). -/
def method2 (content : List Char) : Option PyJson := firstParsed (fenceGroups false content)

/-- Method 3 (lines 214-232): `project_name` by pattern (default
`'generated_project'`), the `files` array body re-wrapped in brackets and
parsed in isolation; any parse failure is swallowed by the bare
`except: pass`. -/
def method3 (content : List Char) : Option PyJson :=
  let pname := (nameSearch content).getD (("generated_project").toList)
  match filesSearch content with
  | some body =>
    (match jsonLoads ('[' :: (body ++ [']'])) with
     | some files =>
       some (.obj [(("project_name").toList, .str pname), (("files").toList, files)])
     | none => none)
  | none => none

/-- Chain two stages through the `if not project_data:` truthiness test: a
truthy result stands, a falsy or absent one falls through (and when the
fallback also fails, the final `if not project_data: return False` at
line 234 yields `none`). -/
def orTruthy (a b : Option PyJson) : Option PyJson :=
  match a with
  | some j => if pyTruthy j then some j else b
  | none => b

/-- The parsing core of `save_project_files` as shipped (lines 150-236):
for content that starts with `{` after stripping, line 160 evaluates
`re.sub` while `re` is still an unbound function local (the only
`import re` is at line 182), so the whole call raises `UnboundLocalError`
and the outer handler returns `False` — modelled as `none`.  Other
content skips Method 1 and runs Methods 2 and 3. -/
def save_project_files_data (content : List Char) : Option PyJson :=
  if startsWithBrace content then none
  else orTruthy (method2 content) (method3 content)

/-- The same parsing core under the evident intent that `re` be imported
at module level, making Method 1 reachable.  Used to measure claims
against the intended code where the shipped code merely crashes. -/
def save_project_files_reImported (content : List Char) : Option PyJson :=
  orTruthy (if startsWithBrace content then method1 content else none)
    (orTruthy (method2 content) (method3 content))

/-- `dict.get`-style lookup on parsed object fields. -/
def objGet : List (List Char × PyJson) → List Char → Option PyJson
  | [], _ => none
  | (k0, v0) :: tl, k => if k0 = k then some v0 else objGet tl k

/-- One iteration of the save loop (lines 246-258, and the analogous loop
in src/app.py lines 343-355): `file_info['path']` and
`file_info['content']` must exist and be strings — a missing key raises
`KeyError`, a non-`dict` entry or a non-`str` value raises `TypeError`
inside `os.path.join` / `f.write`.  Returns the written pair. -/
def entryFields (e : PyJson) : Option (List Char × List Char) :=
  match e with
  | .obj kvs =>
    (match objGet kvs (("path").toList), objGet kvs (("content").toList) with
     | some (.str p), some (.str c) => some (p, c)
     | _, _ => none)
  | _ => none

/-- `project_data.get('files', [])` (line 246): default empty list; a
non-`dict` `project_data` raises `AttributeError` — modelled as `none`. -/
def pdFiles (pd : PyJson) : Option PyJson :=
  match pd with
  | .obj kvs =>
    (match objGet kvs (("files").toList) with
     | some v => some v
     | none => some (.arr []))
  | _ => none

/-- The whole save loop: iterate `project_data.get('files', [])` writing
each entry.  Iterating a nonempty `str` yields one-character strings and
a `dict` yields its keys — indexing those with `'path'` raises, as does
iterating a number/bool/null at all; empty `str`/`dict` iterate zero
times.  `none` models the exception reaching the outer handler
(`return False`); `some l` lists the written (path, content) pairs in
iteration order. -/
def writeFiles (pd : PyJson) : Option (List (List Char × List Char)) :=
  match pdFiles pd with
  | none => none
  | some (.arr items) => items.mapM entryFields
  | some (.str s) => if s.isEmpty then some [] else none
  | some (.obj ms) => if ms.isEmpty then some [] else none
  | some _ => none

/-- Not JSON `null`. -/
def nonNull : PyJson → Bool
  | .null => false
  | _ => true

/-- The invariant claimed in spec §3 for a recovered descriptor: `files`
is an array each of whose entries is an object carrying non-null `path`
and non-null `content`.  (Property formalisation for the claim; the
recovery code itself enforces no such check.) -/
def filesAllNonNull (pd : PyJson) : Bool :=
  match pdFiles pd with
  | some (.arr items) =>
    items.all fun e =>
      match e with
      | .obj kvs =>
        (match objGet kvs (("path").toList), objGet kvs (("content").toList) with
         | some p, some c => nonNull p && nonNull c
         | _, _ => false)
      | _ => false
  | _ => false

/-! ## The Moonshot extraction and fallback

`MoonshotClient.send_prd_request`, src/moonshot_client.py lines 145-176:
after a successful upstream call, extract a JSON candidate from the
message content (fenced `json` block, else first-`{`-to-last-`}` span,
else the whole content), validate it with `json.loads`, and on failure
wrap the content in a synthetic single-`README.md` project serialized
with `json.dumps(..., indent=2)`. -/

/-- `re.search(r'```json\s*([\s\S]*?)\s*```', content)` (line 150). -/
def searchJsonFence (l : List Char) : Option (List Char) := (fenceGroups true l).head?

/-- Not an opening brace. -/
def notOpenBrace (c : Char) : Bool := c != '{'

/-- `re.search(r'\{[\s\S]*\}', content)` (line 155): greedy, so the match
runs from the first `{` to the last `}` after it; `group()` includes both
braces. -/
def searchBraceSpan (l : List Char) : Option (List Char) :=
  match l.dropWhile notOpenBrace with
  | '{' :: r =>
    (match lastSplitBefore '}' r with
     | some body => some ('{' :: (body ++ ['}']))
     | none => none)
  | _ => none

/-- Lines 149-159: the extracted JSON candidate. -/
def extractJsonContent (content : List Char) : List Char :=
  match searchJsonFence content with
  | some g => g
  | none =>
    match searchBraceSpan content with
    | some m => m
    | none => content

/-- The `fallback_response` dict of lines 167-175. -/
def fallbackJson (name content : List Char) : PyJson :=
  .obj [(("project_name").toList, .str name),
        (("files").toList,
         .arr [.obj [(("path").toList, .str (("README.md").toList)),
                     (("content").toList, .str content)]])]

/-- Lines 161-176: validate the candidate with `json.loads`; return it on
success, else return `json.dumps(fallback_response, indent=2)`. -/
def send_prd_request_content (content name : List Char) : List Char :=
  let jc := extractJsonContent content
  if (jsonLoads jc).isSome then jc else jsonDumpsIndent (fallbackJson name content)

/-! ## The path-history update

`ConfigManager.add_path_to_history`, src/config_manager.py lines 106-126,
as a pure transformation of the stored `recent_paths` list (the JSON file
round-trip adds nothing to the list logic): guard against empty or
literal `"output"` paths, remove an existing occurrence, insert at the
front, truncate to `max_paths` (the stored setting, 20 by default). -/
def add_path_to_history (path : List Char) (recent : List (List Char)) (maxPaths : Nat) :
    List (List Char) :=
  if path = [] ∨ path = ("output").toList then recent
  else (path :: (if path ∈ recent then recent.erase path else recent)).take maxPaths

/-! ## Concrete raw inputs

The raw model outputs used to evaluate the recovery routine at specific
points.  Literal braces are written `\x7b`/`\x7d`. -/

/-- Plain prose with no JSON-like structure at all. -/
def rawProse : List Char := ("it was a dark and stormy night").toList

/-- A well-formed JSON document of the `ProjectDescriptor` shape. -/
def rawWellFormed : List Char :=
  ("\x7b\"project_name\": \"demo\", \"files\": []\x7d").toList

/-- The parsed value of `rawWellFormed`. -/
def descDemo : PyJson :=
  .obj [(("project_name").toList, .str (("demo").toList)), (("files").toList, .arr [])]

/-- The spec's own stage-1 example (spec §8): a descriptor truncated
mid-string, with the closing quote, brace and bracket missing. -/
def rawTruncated : List Char :=
  ("\x7b\"project_name\": \"demo\", \"files\": [\x7b\"path\": \"a.py\", \"content\": \"print(1)").toList

/-- A bare `"files": [...]` array with no enclosing object and no
`project_name` field. -/
def rawFilesOnly : List Char :=
  ("\"files\": [\x7b\"path\": \"a.py\", \"content\": \"b\"\x7d]").toList

/-- Prose followed by a fenced ```json block holding a valid descriptor
(with an empty `files` array). -/
def rawFenced : List Char :=
  ("Here you go:\n```json\n\x7b\"project_name\": \"x\", \"files\": []\x7d\n```").toList

/-- The descriptor contained in `rawFenced`'s fenced block. -/
def descFenced : PyJson :=
  .obj [(("project_name").toList, .str (['x'])), (("files").toList, .arr [])]

/-- A bare `files` array whose entry has JSON `null` for both fields. -/
def rawNullEntries : List Char :=
  ("\"files\": [\x7b\"path\": null, \"content\": null\x7d]").toList

/-- A bare `files` array with one well-formed entry. -/
def rawFilesX : List Char :=
  ("\"files\": [\x7b\"path\": \"a.py\", \"content\": \"x\"\x7d]").toList

/-- The descriptor Method 3 reconstructs from `rawFilesX`. -/
def descX : PyJson :=
  .obj [(("project_name").toList, .str (("generated_project").toList)),
        (("files").toList, .arr [.obj [(("path").toList, .str (("a.py").toList)),
                                       (("content").toList, .str (['x']))]])]

/-- The descriptor Method 3 reconstructs from `rawNullEntries`. -/
def descNull : PyJson :=
  .obj [(("project_name").toList, .str (("generated_project").toList)),
        (("files").toList, .arr [.obj [(("path").toList, PyJson.null),
                                       (("content").toList, PyJson.null)]])]

/-- The single `files` entry of the Moonshot fallback object. -/
def fbEntry (c : List Char) : PyJson :=
  .obj [((("path").toList), .str (("README.md").toList)),
        ((("content").toList), .str c)]

/-! ## Inversion of the string encoder

`parseStringBody` decodes exactly what `escapeChar` emits — the key lemma
behind the Moonshot fallback round-trip. -/

/-- Decoding a single hexadecimal digit emitted by `hexDigitCh`. -/
theorem hexDigitVal_hexDigitCh : ∀ d < 16, hexDigitVal (hexDigitCh d) = some d := by decide

/-- Decoding the four digits of a `\uXXXX` escape. -/
theorem hex4Val_uEscape (n : Nat) (h : n < 0x10000) :
    hex4Val (hexDigitCh (n / 4096 % 16)) (hexDigitCh (n / 256 % 16))
      (hexDigitCh (n / 16 % 16)) (hexDigitCh (n % 16)) = some n := by
  have h1 := hexDigitVal_hexDigitCh (n / 4096 % 16) (Nat.mod_lt _ (by omega))
  have h2 := hexDigitVal_hexDigitCh (n / 256 % 16) (Nat.mod_lt _ (by omega))
  have h3 := hexDigitVal_hexDigitCh (n / 16 % 16) (Nat.mod_lt _ (by omega))
  have h4 := hexDigitVal_hexDigitCh (n % 16) (Nat.mod_lt _ (by omega))
  simp only [hex4Val, h1, h2, h3, h4]
  congr 1
  omega

/-- A scalar value is never a surrogate and is below `0x110000`. -/
theorem char_toNat_range (c : Char) :
    c.toNat < 0xd800 ∨ (0xe000 ≤ c.toNat ∧ c.toNat < 0x110000) := c.valid

/-- The encoder never shrinks a string. -/
theorem length_le_escapeString (s : List Char) : s.length ≤ (escapeString s).length := by
  induction s with
  | nil => simp [escapeString]
  | cons c tl ih =>
    have h : 1 ≤ (escapeChar c).length := by
      unfold escapeChar
      repeat' split
      all_goals simp [uEscape]
    simp only [escapeString, List.length_append, List.length_cons]
    omega

/-- Reduction of the `\uXXXX` arm when the decoded value is no high
surrogate. -/
theorem parseStringBodyF_uArm (g : Nat) (a b c d : Char) (L : List Char) (n : Nat)
    (hhex : hex4Val a b c d = some n) (hns : ¬(0xd800 ≤ n ∧ n ≤ 0xdbff)) :
    parseStringBodyF (g + 1) ('\\' :: 'u' :: a :: b :: c :: d :: L)
      = consBody (Char.ofNat n) (parseStringBodyF g L) := by
  rw [parseStringBodyF.eq_def]
  simp only [hhex, if_neg hns]

/-- Reduction of the `\uXXXX\uXXXX` arm for a surrogate pair. -/
theorem parseStringBodyF_uPair (g : Nat) (a b c d a2 b2 c2 d2 : Char) (L : List Char)
    (n m : Nat) (hhex1 : hex4Val a b c d = some n) (hhi : 0xd800 ≤ n ∧ n ≤ 0xdbff)
    (hhex2 : hex4Val a2 b2 c2 d2 = some m) (hlo : 0xdc00 ≤ m ∧ m ≤ 0xdfff) :
    parseStringBodyF (g + 1)
        ('\\' :: 'u' :: a :: b :: c :: d :: ('\\' :: 'u' :: a2 :: b2 :: c2 :: d2 :: L))
      = consBody (Char.ofNat (0x10000 + (n - 0xd800) * 0x400 + (m - 0xdc00)))
          (parseStringBodyF g L) := by
  rw [parseStringBodyF.eq_def]
  simp only [hhex1, if_pos hhi, hhex2, if_pos hlo]

/-- One encoded character at the head of a string body decodes back to
itself; the fuel is symbolic so that the tail parse stays untouched. -/
theorem parseStringBodyF_escChar (c : Char) (g : Nat) (L tl r : List Char)
    (h : parseStringBodyF g L = some (tl, r)) :
    parseStringBodyF (g + 1) (escapeChar c ++ L) = some (c :: tl, r) := by
  by_cases h1 : c = '"'
  · subst h1
    show consBody '"' (parseStringBodyF g L) = some ('"' :: tl, r)
    rw [h]; rfl
  by_cases h2 : c = '\\'
  · subst h2
    show consBody '\\' (parseStringBodyF g L) = some ('\\' :: tl, r)
    rw [h]; rfl
  by_cases h3 : c = '\x08'
  · subst h3
    show consBody '\x08' (parseStringBodyF g L) = some ('\x08' :: tl, r)
    rw [h]; rfl
  by_cases h4 : c = '\x0c'
  · subst h4
    show consBody '\x0c' (parseStringBodyF g L) = some ('\x0c' :: tl, r)
    rw [h]; rfl
  by_cases h5 : c = '\n'
  · subst h5
    show consBody '\n' (parseStringBodyF g L) = some ('\n' :: tl, r)
    rw [h]; rfl
  by_cases h6 : c = '\r'
  · subst h6
    show consBody '\r' (parseStringBodyF g L) = some ('\r' :: tl, r)
    rw [h]; rfl
  by_cases h7 : c = '\t'
  · subst h7
    show consBody '\t' (parseStringBodyF g L) = some ('\t' :: tl, r)
    rw [h]; rfl
  have hrange := char_toNat_range c
  by_cases hp : 0x20 ≤ c.toNat ∧ c.toNat ≤ 0x7e
  · have he : escapeChar c = [c] := by
      simp only [escapeChar, if_neg h1, if_neg h2, if_neg h3, if_neg h4,
        if_neg h5, if_neg h6, if_neg h7, if_pos hp]
    rw [he, List.singleton_append, parseStringBodyF.eq_def]
    split
    all_goals first
      | exact absurd rfl h1
      | exact absurd rfl h2
      | (rw [if_neg (by omega)]; rw [h]; rfl)
      | simp_all [consBody]
  by_cases hb : c.toNat < 0x10000
  · have he : escapeChar c = uEscape c.toNat := by
      simp only [escapeChar, if_neg h1, if_neg h2, if_neg h3, if_neg h4,
        if_neg h5, if_neg h6, if_neg h7, if_neg hp, if_pos hb]
    rw [he]
    simp only [uEscape, List.cons_append, List.nil_append]
    rw [parseStringBodyF_uArm g _ _ _ _ L c.toNat
      (hex4Val_uEscape c.toNat hb) (by omega)]
    rw [h, Char.ofNat_toNat]
    rfl
  · have hv : c.toNat < 0x110000 := by omega
    have he : escapeChar c =
        uEscape (0xd800 + (c.toNat - 0x10000) / 0x400) ++
        uEscape (0xdc00 + (c.toNat - 0x10000) % 0x400) := by
      simp only [escapeChar, if_neg h1, if_neg h2, if_neg h3, if_neg h4,
        if_neg h5, if_neg h6, if_neg h7, if_neg hp, if_neg hb]
    rw [he]
    simp only [uEscape, List.cons_append, List.nil_append]
    have hdiv : (c.toNat - 0x10000) / 0x400 ≤ 0x3ff := by omega
    have hmod : (c.toNat - 0x10000) % 0x400 ≤ 0x3ff :=
      Nat.le_of_lt_succ (Nat.mod_lt _ (by omega))
    rw [parseStringBodyF_uPair g _ _ _ _ _ _ _ _ L
      (0xd800 + (c.toNat - 0x10000) / 0x400)
      (0xdc00 + (c.toNat - 0x10000) % 0x400)
      (hex4Val_uEscape _ (by omega)) (by omega)
      (hex4Val_uEscape _ (by omega)) (by omega)]
    have harith : 0x10000 + (0xd800 + (c.toNat - 0x10000) / 0x400 - 0xd800) * 0x400
        + (0xdc00 + (c.toNat - 0x10000) % 0x400 - 0xdc00) = c.toNat := by
      omega
    rw [harith, h, Char.ofNat_toNat]
    rfl

/-- Fuel-polymorphic inversion: parsing an escaped string body up to its
closing quote recovers the string, for any fuel surplus `f`. -/
theorem parseStringBodyF_escape (s : List Char) :
    ∀ (f : Nat) (r : List Char),
      parseStringBodyF (f + s.length + 1) (escapeString s ++ '"' :: r) = some (s, r) := by
  induction s with
  | nil =>
    intro f r
    simp [escapeString, parseStringBodyF]
  | cons c tl ih =>
    intro f r
    show parseStringBodyF ((f + tl.length + 1) + 1)
        ((escapeChar c ++ escapeString tl) ++ '"' :: r) = some (c :: tl, r)
    rw [List.append_assoc]
    exact parseStringBodyF_escChar c (f + tl.length + 1) (escapeString tl ++ '"' :: r) tl r
      (ih f r)

/-- The wrapper's fuel is always sufficient: parsing an escaped string
body recovers the string. -/
theorem parseStringBody_escape (s r : List Char) :
    parseStringBody (escapeString s ++ '"' :: r) = some (s, r) := by
  unfold parseStringBody
  have hes := length_le_escapeString s
  have hlen : (escapeString s ++ '"' :: r).length + 1
      = ((escapeString s).length - s.length + r.length + 1) + s.length + 1 := by
    simp only [List.length_append, List.length_cons]
    omega
  rw [hlen]
  exact parseStringBodyF_escape s ((escapeString s).length - s.length + r.length + 1) r



theorem parseValueF_strVal (g : Nat) (s X : List Char) :
    parseValueF (g + 1) ('"' :: (escapeString s ++ '"' :: X)) = some (.str s, X) := by
  rw [show parseValueF (g + 1) ('"' :: (escapeString s ++ '"' :: X)) =
      (match parseStringBody (escapeString s ++ '"' :: X) with
       | some (s1, r1) => some (PyJson.str s1, r1)
       | none => none) from rfl]
  rw [parseStringBody_escape]



theorem parseValueF_objU (g : Nat) (R : List Char) :
    parseValueF (g + 1) ('{' :: R) =
      (match skipWs R with
       | '}' :: r1 => some (.obj [], r1)
       | r1 => parseMembersF g [] r1) := rfl

theorem parseValueF_arrU (g : Nat) (R : List Char) :
    parseValueF (g + 1) ('[' :: R) =
      (match skipWs R with
       | ']' :: r1 => some (.arr [], r1)
       | r1 => parseElemsF g [] r1) := rfl

theorem parseElemsF_U (g : Nat) (acc : List PyJson) (S : List Char) :
    parseElemsF (g + 1) acc S =
      (match parseValueF g S with
       | none => none
       | some (v, r) =>
         match skipWs r with
         | ',' :: r1 => parseElemsF g (acc ++ [v]) (skipWs r1)
         | ']' :: r1 => some (.arr (acc ++ [v]), r1)
         | _ => none) := rfl

theorem parseMembersF_U (g : Nat) (acc : List (List Char × PyJson)) (S : List Char) :
    parseMembersF (g + 1) acc ('"' :: S) =
      (match parseStringBody S with
       | none => none
       | some (k, r1) =>
         match skipWs r1 with
         | ':' :: r2 =>
           (match parseValueF g (skipWs r2) with
            | none => none
            | some (v, r3) =>
              match skipWs r3 with
              | ',' :: r4 => parseMembersF g (insKey acc k v) (skipWs r4)
              | '}' :: r4 => some (.obj (insKey acc k v), r4)
              | _ => none)
         | _ => none) := rfl

theorem parseValueF_objStep (g : Nat) (R S : List Char) (res : Option (PyJson × List Char))
    (hw : skipWs R = '"' :: S) (hrest : parseMembersF g [] ('"' :: S) = res) :
    parseValueF (g + 1) ('{' :: R) = res := by
  rw [parseValueF_objU, hw, ← hrest]
  rfl

theorem parseValueF_arrStep (g : Nat) (R S : List Char) (res : Option (PyJson × List Char))
    (hw : skipWs R = '{' :: S) (hrest : parseElemsF g [] ('{' :: S) = res) :
    parseValueF (g + 1) ('[' :: R) = res := by
  rw [parseValueF_arrU, hw, ← hrest]
  rfl

theorem parseElemsF_last (g : Nat) (acc : List PyJson) (S R R2 : List Char) (v : PyJson)
    (hv : parseValueF (g + 1) S = some (v, R)) (hr : skipWs R = ']' :: R2) :
    parseElemsF (g + 2) acc S = some (.arr (acc ++ [v]), R2) := by
  show parseElemsF ((g + 1) + 1) acc S = _
  rw [parseElemsF_U, hv]
  simp only [hr]

theorem parseMembersF_comma (g : Nat) (acc : List (List Char × PyJson)) (k : List Char)
    (S R1 S2 R2 R3 S3 : List Char) (v : PyJson) (res : Option (PyJson × List Char))
    (hk : parseStringBody S = some (k, ':' :: R1)) (hw : skipWs R1 = S2)
    (hv : parseValueF (g + 1) S2 = some (v, R2)) (hr : skipWs R2 = ',' :: R3)
    (hw2 : skipWs R3 = S3)
    (hrest : parseMembersF (g + 1) (insKey acc k v) S3 = res) :
    parseMembersF (g + 2) acc ('"' :: S) = res := by
  show parseMembersF ((g + 1) + 1) acc ('"' :: S) = _
  rw [parseMembersF_U, hk]
  simp only [show ∀ X : List Char, skipWs (':' :: X) = ':' :: X from fun _ => rfl,
    hw, hv, hr, hw2, hrest]

theorem parseMembersF_close (g : Nat) (acc : List (List Char × PyJson)) (k : List Char)
    (S R1 S2 R2 R3 : List Char) (v : PyJson)
    (hk : parseStringBody S = some (k, ':' :: R1)) (hw : skipWs R1 = S2)
    (hv : parseValueF (g + 1) S2 = some (v, R2)) (hr : skipWs R2 = '}' :: R3) :
    parseMembersF (g + 2) acc ('"' :: S) = some (.obj (insKey acc k v), R3) := by
  show parseMembersF ((g + 1) + 1) acc ('"' :: S) = _
  rw [parseMembersF_U, hk]
  simp only [show ∀ X : List Char, skipWs (':' :: X) = ':' :: X from fun _ => rfl,
    hw, hv, hr]

set_option maxRecDepth 4000 in
theorem parse_dumpsIndent_fallback (f : Nat) (n c : List Char) :
    parseValueF (f + 10) (jsonDumpsIndent (fallbackJson n c)) = some (fallbackJson n c, []) := by
  have h2 : ∀ (g : Nat) (acc : List (List Char × PyJson)) (X : List Char),
      parseMembersF (g + 2) acc
        ('"' :: (escapeString (("content").toList) ++ '"' :: ':' :: ' ' :: '"' ::
          (escapeString c ++ '"' :: '\n' :: ' ' :: ' ' :: ' ' :: ' ' :: '}' :: X)))
      = some (.obj (insKey acc (("content").toList) (.str c)), X) := by
    intro g acc X
    apply parseMembersF_close
    case hk => exact parseStringBody_escape _ _
    case hw => rfl
    case hv => exact parseValueF_strVal _ _ _
    case hr => rfl
  have h1 : ∀ (g : Nat) (acc : List (List Char × PyJson)) (X : List Char),
      parseMembersF (g + 3) acc
        ('"' :: (escapeString (("path").toList) ++ '"' :: ':' :: ' ' :: '"' ::
          (escapeString (("README.md").toList) ++ '"' :: ',' :: '\n' ::
            ' ' :: ' ' :: ' ' :: ' ' :: ' ' :: ' ' :: '"' ::
            (escapeString (("content").toList) ++ '"' :: ':' :: ' ' :: '"' ::
              (escapeString c ++ '"' :: '\n' :: ' ' :: ' ' :: ' ' :: ' ' :: '}' :: X)))))
      = some (.obj (insKey (insKey acc (("path").toList) (.str (("README.md").toList)))
                      (("content").toList) (.str c)), X) := by
    intro g acc X
    show parseMembersF ((g + 1) + 2) acc _ = _
    apply parseMembersF_comma
    case hk => exact parseStringBody_escape _ _
    case hw => rfl
    case hv => exact parseValueF_strVal _ _ _
    case hr => rfl
    case hw2 => rfl
    case hrest => exact h2 g _ X
  have hInner : ∀ (g : Nat) (X : List Char),
      parseValueF (g + 4)
        ('{' :: '\n' :: ' ' :: ' ' :: ' ' :: ' ' :: ' ' :: ' ' :: '"' ::
          (escapeString (("path").toList) ++ '"' :: ':' :: ' ' :: '"' ::
          (escapeString (("README.md").toList) ++ '"' :: ',' :: '\n' ::
            ' ' :: ' ' :: ' ' :: ' ' :: ' ' :: ' ' :: '"' ::
            (escapeString (("content").toList) ++ '"' :: ':' :: ' ' :: '"' ::
              (escapeString c ++ '"' :: '\n' :: ' ' :: ' ' :: ' ' :: ' ' :: '}' :: X)))))
      = some (fbEntry c, X) := by
    intro g X
    show parseValueF ((g + 3) + 1) _ = _
    apply parseValueF_objStep
    case hw => rfl
    case hrest => exact h1 g [] X
  have hArrV : ∀ (g : Nat) (X : List Char),
      parseValueF (g + 6)
        ('[' :: '\n' :: ' ' :: ' ' :: ' ' :: ' ' ::
          '{' :: '\n' :: ' ' :: ' ' :: ' ' :: ' ' :: ' ' :: ' ' :: '"' ::
          (escapeString (("path").toList) ++ '"' :: ':' :: ' ' :: '"' ::
          (escapeString (("README.md").toList) ++ '"' :: ',' :: '\n' ::
            ' ' :: ' ' :: ' ' :: ' ' :: ' ' :: ' ' :: '"' ::
            (escapeString (("content").toList) ++ '"' :: ':' :: ' ' :: '"' ::
              (escapeString c ++ '"' :: '\n' :: ' ' :: ' ' :: ' ' :: ' ' :: '}' ::
                '\n' :: ' ' :: ' ' :: ']' :: X)))))
      = some (.arr [fbEntry c], X) := by
    intro g X
    show parseValueF ((g + 5) + 1) _ = _
    apply parseValueF_arrStep
    case hw => rfl
    case hrest =>
      show parseElemsF ((g + 3) + 2) [] _ = _
      exact parseElemsF_last (g + 3) [] _ _ _ _ (hInner g _) rfl
  have hOut2 : ∀ (g : Nat) (acc : List (List Char × PyJson)) (X : List Char),
      parseMembersF (g + 7) acc
        ('"' :: (escapeString (("files").toList) ++ '"' :: ':' :: ' ' ::
          '[' :: '\n' :: ' ' :: ' ' :: ' ' :: ' ' ::
          '{' :: '\n' :: ' ' :: ' ' :: ' ' :: ' ' :: ' ' :: ' ' :: '"' ::
          (escapeString (("path").toList) ++ '"' :: ':' :: ' ' :: '"' ::
          (escapeString (("README.md").toList) ++ '"' :: ',' :: '\n' ::
            ' ' :: ' ' :: ' ' :: ' ' :: ' ' :: ' ' :: '"' ::
            (escapeString (("content").toList) ++ '"' :: ':' :: ' ' :: '"' ::
              (escapeString c ++ '"' :: '\n' :: ' ' :: ' ' :: ' ' :: ' ' :: '}' ::
                '\n' :: ' ' :: ' ' :: ']' :: '\n' :: '}' :: X))))))
      = some (.obj (insKey acc (("files").toList) (.arr [fbEntry c])), X) := by
    intro g acc X
    show parseMembersF ((g + 5) + 2) acc _ = _
    apply parseMembersF_close
    case hk => exact parseStringBody_escape _ _
    case hw => rfl
    case hv => exact hArrV g _
    case hr => rfl
  have hOut1 : ∀ (g : Nat) (acc : List (List Char × PyJson)) (X : List Char),
      parseMembersF (g + 9) acc
        ('"' :: (escapeString (("project_name").toList) ++ '"' :: ':' :: ' ' :: '"' ::
          (escapeString n ++ '"' :: ',' :: '\n' :: ' ' :: ' ' :: '"' ::
          (escapeString (("files").toList) ++ '"' :: ':' :: ' ' ::
          '[' :: '\n' :: ' ' :: ' ' :: ' ' :: ' ' ::
          '{' :: '\n' :: ' ' :: ' ' :: ' ' :: ' ' :: ' ' :: ' ' :: '"' ::
          (escapeString (("path").toList) ++ '"' :: ':' :: ' ' :: '"' ::
          (escapeString (("README.md").toList) ++ '"' :: ',' :: '\n' ::
            ' ' :: ' ' :: ' ' :: ' ' :: ' ' :: ' ' :: '"' ::
            (escapeString (("content").toList) ++ '"' :: ':' :: ' ' :: '"' ::
              (escapeString c ++ '"' :: '\n' :: ' ' :: ' ' :: ' ' :: ' ' :: '}' ::
                '\n' :: ' ' :: ' ' :: ']' :: '\n' :: '}' :: X))))))))
      = some (.obj (insKey (insKey acc (("project_name").toList) (.str n))
          (("files").toList) (.arr [fbEntry c])), X) := by
    intro g acc X
    show parseMembersF ((g + 7) + 2) acc _ = _
    apply parseMembersF_comma
    case hk => exact parseStringBody_escape _ _
    case hw => rfl
    case hv => exact parseValueF_strVal _ _ _
    case hr => rfl
    case hw2 => rfl
    case hrest => exact hOut2 (g + 1) _ X
  simp only [jsonDumpsIndent, fallbackJson, dumpValI, dumpFieldsI, dumpItemsI, strQ, nlInd,
    List.replicate, List.cons_append, List.nil_append, List.append_assoc, List.append_nil]
  show parseValueF ((f + 9) + 1) _ = _
  apply parseValueF_objStep
  case hw => rfl
  case hrest =>
    refine (hOut1 f [] []).trans ?_
    rfl

theorem jsonLoads_dumpsIndent_fallback (n c : List Char) :
    jsonLoads (jsonDumpsIndent (fallbackJson n c)) = some (fallbackJson n c) := by
  obtain ⟨t, ht⟩ : ∃ t, jsonDumpsIndent (fallbackJson n c) = '{' :: '\n' :: ' ' :: ' ' :: '"' :: t :=
    ⟨_, rfl⟩
  have hlen : 2 * (jsonDumpsIndent (fallbackJson n c)).length + 2
      = (2 * (jsonDumpsIndent (fallbackJson n c)).length - 8) + 10 := by
    rw [ht]
    simp only [List.length_cons]
    omega
  have hskip : skipWs (jsonDumpsIndent (fallbackJson n c)) = jsonDumpsIndent (fallbackJson n c) := by
    rw [ht]
    rfl
  unfold jsonLoads
  rw [hlen, hskip, parse_dumpsIndent_fallback]
  rfl

theorem send_prd_request_content_parses (content name : List Char) :
    (jsonLoads (send_prd_request_content content name)).isSome = true := by
  unfold send_prd_request_content
  by_cases h : (jsonLoads (extractJsonContent content)).isSome
  · simp only [h, if_pos]
  · simp only [h, if_neg, Bool.false_eq_true, ite_false]
    rw [jsonLoads_dumpsIndent_fallback]
    rfl

/-! ## Behaviour of the shipped recovery routine at concrete inputs

Each of the following evaluates the embedded routine exactly where a
claim about it is decided.  All equalities are closed kernel
computations. -/

/-- Claim C1, counterexample: on plain prose with no JSON-like structure,
`save_project_files` does not return a `ProjectDescriptor` — all three
methods fail and the function returns `False` (modelled `none`).  The
single-`README.md` stage-4 fallback of the spec does not exist in this
routine; the claim that the recovery "always returns a
`ProjectDescriptor`, degraded or not" is therefore false here. -/
theorem save_project_files_prose_returns_none :
    save_project_files_data rawProse = none := rfl

/-- Claim C2, code bug: `rawWellFormed` is a well-formed descriptor (first
conjunct), yet the shipped routine returns `False` (second conjunct):
since the content starts with `{`, line 160 raises `UnboundLocalError`
(`re` is only imported inside the function at line 182) and the outer
handler returns`False`.  The third conjunct shows the failure is not
the import slip alone: even with `re` importable, the stage-1 quote fix
appends a spurious `"` to the well-formed text, stage 1 fails, and
stage 3 also fails because the empty `files` array does not match
`\[([\s\S]+)\]`. -/
theorem save_project_files_wellformed_returns_none :
    jsonLoads rawWellFormed = some descDemo ∧
    save_project_files_data rawWellFormed = none ∧
    save_project_files_reImported rawWellFormed = none :=
  ⟨rfl, rfl, rfl⟩

/-- Claim C3, code bug: on the spec's own truncation example the shipped
routine returns `False` (first conjunct, the `UnboundLocalError` path).
Moreover the stage-1 repair itself appends the closing quote and then
the braces *before* the bracket, producing `...\x7d\x7d]` instead of the
expected `...\x7d]\x7d` — text that does not parse (second and third
conjuncts) — so even the re-imported variant returns `False` (fourth
conjunct) instead of the descriptor the spec expects. -/
theorem save_project_files_truncated_returns_none :
    save_project_files_data rawTruncated = none ∧
    repairJson rawTruncated = rawTruncated ++ ("\"\x7d\x7d]").toList ∧
    jsonLoads (repairJson rawTruncated) = none ∧
    save_project_files_reImported rawTruncated = none :=
  ⟨rfl, rfl, rfl, rfl⟩

/-- Claim C5, code bug: the fenced block of `rawFenced` is found by the
stage-2 scan (first conjunct) and is a valid descriptor as it stands
(second conjunct), yet the routine returns `False` (third conjunct): the
stage-2 "fix" appends a spurious `"` to the block so its parse fails,
and stage 3 fails on the empty `files` array. -/
theorem save_project_files_fenced_returns_none :
    fenceGroups false rawFenced =
      [("\x7b\"project_name\": \"x\", \"files\": []\x7d").toList] ∧
    jsonLoads (("\x7b\"project_name\": \"x\", \"files\": []\x7d").toList) = some descFenced ∧
    save_project_files_data rawFenced = none :=
  ⟨rfl, rfl, rfl⟩

/-- Claim C8, code bug: recovery succeeds on `rawFilesX` via stage 3
(first conjunct), `json.dumps` of the result is a well-formed descriptor
document (second conjunct), but re-running the routine on that
serialization returns `False` (third conjunct): the serialized text
starts with `{`, so the `UnboundLocalError` path fires.  Idempotence
fails.  (With `re` imported the rerun would recover the same descriptor
again — fourth conjunct — so the import slip is the root cause.) -/
theorem save_project_files_not_idempotent :
    save_project_files_data rawFilesX = some descX ∧
    jsonDumps descX =
      ("\x7b\"project_name\": \"generated_project\", \"files\": [\x7b\"path\": \"a.py\", \"content\": \"x\"\x7d]\x7d").toList ∧
    save_project_files_data (jsonDumps descX) = none ∧
    save_project_files_reImported (jsonDumps descX) = some descX :=
  ⟨rfl, rfl, rfl, rfl⟩

/-- Claim C4, counterexample: on a bare `files` array the recovered
project name is the hard-coded literal `'generated_project'` — the
routine has no caller-supplied fallback-name parameter, so it does not
equal, e.g., the callers' default project name `"MyProject"`. -/
theorem save_project_files_files_only_hardcoded_name :
    save_project_files_data rawFilesOnly =
      some (.obj [(("project_name").toList, .str (("generated_project").toList)),
                  (("files").toList, .arr [.obj [(("path").toList, .str (("a.py").toList)),
                                                 (("content").toList, .str (['b']))]])]) ∧
    (("generated_project").toList = (("MyProject").toList) → False) :=
  ⟨rfl, by decide⟩

/-- Claim C6, counterexample: recovery succeeds on `rawNullEntries` via
stage 3 and returns a descriptor whose single `files` entry has JSON
`null` for both `path` and `content` — the claimed non-null invariant
does not hold for the descriptor the recovery returns. -/
theorem save_project_files_returns_null_fields :
    save_project_files_data rawNullEntries = some descNull ∧
    filesAllNonNull descNull = false :=
  ⟨rfl, rfl⟩

/-! ## The Moonshot fallback is total -/

/-- Claim C1, amended: in the Moonshot client, whenever the extracted
candidate fails `json.loads` validation, `send_prd_request` returns the
serialized single-file fallback — path `README.md`, content the entire
raw text, project name the caller's — and that string parses back to
exactly the fallback object, so this terminal stage cannot fail. -/
theorem moonshot_fallback_total (content name : List Char)
    (h : jsonLoads (extractJsonContent content) = none) :
    send_prd_request_content content name = jsonDumpsIndent (fallbackJson name content) ∧
    jsonLoads (send_prd_request_content content name) = some (fallbackJson name content) := by
  have h2 : send_prd_request_content content name =
      jsonDumpsIndent (fallbackJson name content) := by
    simp only [send_prd_request_content]
    rw [h]
    rfl
  exact ⟨h2, by rw [h2, jsonLoads_dumpsIndent_fallback]⟩

/-- Witness for `moonshot_fallback_total` at plain prose content. -/
theorem moonshot_fallback_total_witness :
    jsonLoads (extractJsonContent (("hello").toList)) = none ∧
    (send_prd_request_content (("hello").toList) (("proj").toList) =
      jsonDumpsIndent (fallbackJson (("proj").toList) (("hello").toList)) ∧
     jsonLoads (send_prd_request_content (("hello").toList) (("proj").toList)) =
      some (fallbackJson (("proj").toList) (("hello").toList))) :=
  ⟨rfl, moonshot_fallback_total (("hello").toList) (("proj").toList) rfl⟩

/-! ## Stage 3 on a bare files array -/

/-- Claim C4, amended: for input that contains only a `files` array —
it does not start with `{` after stripping, holds no fenced block, and
matches no `project_name` pattern — whose bracketed body parses, the
routine returns the parsed array under the hard-coded default name
`'generated_project'` (the routine takes no caller-supplied fallback
name). -/
theorem method3_files_only_default_name (content body : List Char) (files : PyJson)
    (h0 : startsWithBrace content = false)
    (h1 : fenceGroups false content = [])
    (h2 : nameSearch content = none)
    (h3 : filesSearch content = some body)
    (h4 : jsonLoads ('[' :: (body ++ [']'])) = some files) :
    save_project_files_data content =
      some (.obj [(("project_name").toList, .str (("generated_project").toList)),
                  (("files").toList, files)]) := by
  unfold save_project_files_data
  rw [h0]
  show orTruthy (method2 content) (method3 content) = _
  unfold method2
  rw [h1]
  show method3 content = _
  unfold method3
  rw [h2, h3]
  simp only [h4, Option.getD_none]

/-- Witness for `method3_files_only_default_name` at `rawFilesOnly`. -/
theorem method3_files_only_default_name_witness :
    startsWithBrace rawFilesOnly = false ∧
    fenceGroups false rawFilesOnly = [] ∧
    nameSearch rawFilesOnly = none ∧
    filesSearch rawFilesOnly =
      some (("\x7b\"path\": \"a.py\", \"content\": \"b\"\x7d").toList) ∧
    jsonLoads ('[' :: ((("\x7b\"path\": \"a.py\", \"content\": \"b\"\x7d").toList) ++ [']'])) =
      some (.arr [.obj [(("path").toList, .str (("a.py").toList)),
                        (("content").toList, .str (['b']))]]) ∧
    save_project_files_data rawFilesOnly =
      some (.obj [(("project_name").toList, .str (("generated_project").toList)),
                  (("files").toList, .arr [.obj [(("path").toList, .str (("a.py").toList)),
                                                 (("content").toList, .str (['b']))]])]) :=
  ⟨rfl, rfl, rfl, rfl, rfl,
   method3_files_only_default_name rawFilesOnly _ _ rfl rfl rfl rfl rfl⟩

/-! ## The write loop demands string fields and preserves order -/

/-- `mapM entryFields` succeeds exactly by transforming each entry in
place: the output has the same length and its `i`-th element is the
extracted (path, content) pair of the `i`-th entry. -/
theorem mapM_entryFields_spec :
    ∀ (items : List PyJson) (l : List (List Char × List Char)),
      items.mapM entryFields = some l →
      l.length = items.length ∧
      ∀ (i : Nat) (h1 : i < items.length) (h2 : i < l.length),
        entryFields (items.get ⟨i, h1⟩) = some (l.get ⟨i, h2⟩) := by
  intro items
  induction items with
  | nil =>
    intro l h
    simp only [List.mapM_nil, pure, Option.some.injEq] at h
    subst h
    exact ⟨rfl, fun i h1 _ => absurd h1 (by simp)⟩
  | cons x xs ih =>
    intro l h
    rw [List.mapM_cons] at h
    cases hx : entryFields x with
    | none => rw [hx] at h; simp at h
    | some y =>
      rw [hx] at h
      cases hxs : xs.mapM entryFields with
      | none => rw [hxs] at h; simp at h
      | some ys =>
        rw [hxs] at h
        simp only [Option.bind_some, Option.pure_def, Option.bind_eq_bind,
          Option.some_bind, Option.some.injEq] at h
        subst h
        obtain ⟨hlen, hidx⟩ := ih ys hxs
        refine ⟨by simp [hlen], ?_⟩
        intro i h1 h2
        match i with
        | 0 => exact hx
        | i + 1 =>
          exact hidx i (by simpa using h1) (by simpa using h2)

/-- Claim C6, amended: when recovery succeeds, the recovered descriptor's
`files` entries are carried to the write loop in source order, and the
loop completes only when every entry is an object with a string `path`
and a string `content` (a `null` or missing field raises and the routine
returns `False`): on success the written pairs are exactly the per-entry
extractions, in order. -/
theorem writeFiles_string_fields_in_order (content : List Char) (pd : PyJson)
    (items : List PyJson) (l : List (List Char × List Char))
    (_hsave : save_project_files_data content = some pd)
    (hf : pdFiles pd = some (.arr items))
    (hw : writeFiles pd = some l) :
    l.length = items.length ∧
    ∀ (i : Nat) (h1 : i < items.length) (h2 : i < l.length),
      entryFields (items.get ⟨i, h1⟩) = some (l.get ⟨i, h2⟩) := by
  unfold writeFiles at hw
  rw [hf] at hw
  exact mapM_entryFields_spec items l hw

/-- Witness for `writeFiles_string_fields_in_order` at `rawFilesX`. -/
theorem writeFiles_string_fields_in_order_witness :
    save_project_files_data rawFilesX = some descX ∧
    pdFiles descX = some (.arr [.obj [(("path").toList, .str (("a.py").toList)),
                                      (("content").toList, .str (['x']))]]) ∧
    writeFiles descX = some [((("a.py").toList), (['x']))] ∧
    (([((("a.py").toList), (['x']))] : List (List Char × List Char)).length =
       ([.obj [(("path").toList, .str (("a.py").toList)),
               (("content").toList, .str (['x']))]] : List PyJson).length ∧
     ∀ (i : Nat) (h1 : i < ([.obj [(("path").toList, .str (("a.py").toList)),
               (("content").toList, .str (['x']))]] : List PyJson).length)
       (h2 : i < ([((("a.py").toList), (['x']))] : List (List Char × List Char)).length),
       entryFields (([.obj [(("path").toList, .str (("a.py").toList)),
               (("content").toList, .str (['x']))]] : List PyJson).get ⟨i, h1⟩) =
         some (([((("a.py").toList), (['x']))] : List (List Char × List Char)).get ⟨i, h2⟩)) :=
  ⟨rfl, rfl, rfl,
   writeFiles_string_fields_in_order rawFilesX descX _ _ rfl rfl rfl⟩

/-! ## The stage-1 repair balances braces and brackets -/

/-- The unterminated-string fix only inserts `"` characters: counts of
every other character are unchanged. -/
theorem count_fixUntermAux (ch : Char) (hch : ¬ ch = '"') :
    ∀ (f : Nat) (l : List Char), (fixUntermAux f l).count ch = l.count ch := by
  intro f
  induction f with
  | zero => intro l; cases l <;> rfl
  | succ f ih =>
    intro l
    cases l with
    | nil => rfl
    | cons c tl =>
      by_cases hc : c = '"'
      · subst hc
        show (match quoteWalk '"' tl with
              | some k => '"' :: (tl.take k ++ '"' :: fixUntermAux f (tl.drop k))
              | none => '"' :: fixUntermAux f tl).count ch = ('"' :: tl).count ch
        cases hq : quoteWalk '"' tl with
        | none => simp [List.count_cons, ih tl, hch]
        | some k =>
          have hsplit : tl.count ch = (tl.take k).count ch + (tl.drop k).count ch := by
            rw [← List.count_append, List.take_append_drop]
          simp [List.count_cons, List.count_append, ih (tl.drop k), hch, hsplit]
      · show (if c = '"' then _ else c :: fixUntermAux f tl).count ch = (c :: tl).count ch
        rw [if_neg hc]
        simp [List.count_cons, ih tl]

/-- Whitespace runs contain no occurrence of a non-whitespace char. -/
theorem count_takeWhile_ws (ch : Char) (hch : isReWs ch = false) (l : List Char) :
    (l.takeWhile isReWs).count ch = 0 := by
  rw [List.count_eq_zero]
  intro hmem
  have hws := List.mem_takeWhile_imp hmem
  rw [hch] at hws
  exact Bool.noConfusion hws

/-- The trailing-comma fix removes only commas and whitespace: counts of
any character that is neither a comma nor whitespace are unchanged
(including the closer itself, which is re-emitted). -/
theorem count_commaCloseAux (close ch : Char) (hch1 : ¬ ch = ',') (hch2 : isReWs ch = false) :
    ∀ (f : Nat) (l : List Char), (commaCloseAux close f l).count ch = l.count ch := by
  intro f
  induction f with
  | zero => intro l; cases l <;> rfl
  | succ f ih =>
    intro l
    cases l with
    | nil => rfl
    | cons c tl =>
      by_cases hc : c = ','
      · subst hc
        show (match tl.dropWhile isReWs with
              | d :: rest =>
                if d = close then close :: commaCloseAux close f rest
                else ',' :: commaCloseAux close f tl
              | [] => ',' :: commaCloseAux close f tl).count ch = (',' :: tl).count ch
        cases hd : tl.dropWhile isReWs with
        | nil => simp [List.count_cons, ih tl, hch1]
        | cons d rest =>
          show List.count ch (if d = close then close :: commaCloseAux close f rest
              else ',' :: commaCloseAux close f tl) = List.count ch (',' :: tl)
          by_cases hdc : d = close
          · have hsplit : tl.count ch
                = (tl.takeWhile isReWs).count ch + (d :: rest).count ch := by
              rw [← hd, ← List.count_append, List.takeWhile_append_dropWhile]
            rw [hdc] at hsplit
            rw [if_pos hdc]
            simp [List.count_cons, ih rest, hch1, hsplit, count_takeWhile_ws ch hch2]
          · rw [if_neg hdc]
            simp [List.count_cons, ih tl, hch1]
      · show (if c = ',' then _ else c :: commaCloseAux close f tl).count ch
            = (c :: tl).count ch
        rw [if_neg hc]
        simp [List.count_cons, ih tl]

/-- Claim C7: for input whose closing-brace count does not exceed its
opening-brace count, and likewise for brackets, the stage-1 repair
produces text with exactly balanced braces and exactly balanced
brackets — it appends precisely the missing closers.  (The brace count
is balanced first; the appended braces do not disturb the bracket
count, which is then balanced on the extended text.) -/
theorem repairJson_balances_braces_brackets (s : List Char)
    (hbr : countCh '}' s ≤ countCh '{' s) (hbk : countCh ']' s ≤ countCh '[' s) :
    countCh '{' (repairJson s) = countCh '}' (repairJson s) ∧
    countCh '[' (repairJson s) = countCh ']' (repairJson s) := by
  have pres : ∀ ch : Char, ¬ ch = '"' → ¬ ch = ',' → isReWs ch = false →
      (commaClose ']' (commaClose '}' (fixUnterm s))).count ch = s.count ch := by
    intro ch n1 n2 n3
    unfold commaClose fixUnterm
    rw [count_commaCloseAux _ _ n2 n3, count_commaCloseAux _ _ n2 n3, count_fixUntermAux _ n1]
  have e1 := pres '{' (by decide) (by decide) (by decide)
  have e2 := pres '}' (by decide) (by decide) (by decide)
  have e3 := pres '[' (by decide) (by decide) (by decide)
  have e4 := pres ']' (by decide) (by decide) (by decide)
  unfold countCh at hbr hbk
  unfold repairJson closeBrackets closeBraces countCh
  constructor
  all_goals
    simp [List.count_append, List.count_replicate, e1, e2, e3, e4]
    omega

/-- Witness for `repairJson_balances_braces_brackets`. -/
theorem repairJson_balances_braces_brackets_witness :
    countCh '}' (("x\x7b[y").toList) ≤ countCh '{' (("x\x7b[y").toList) ∧
    countCh ']' (("x\x7b[y").toList) ≤ countCh '[' (("x\x7b[y").toList) ∧
    (countCh '{' (repairJson (("x\x7b[y").toList)) =
       countCh '}' (repairJson (("x\x7b[y").toList)) ∧
     countCh '[' (repairJson (("x\x7b[y").toList)) =
       countCh ']' (repairJson (("x\x7b[y").toList))) :=
  ⟨by decide, by decide,
   repairJson_balances_braces_brackets (("x\x7b[y").toList) (by decide) (by decide)⟩

/-! ## Config manager: path history invariants -/

/-- Claim C10: on a duplicate-free stored history, adding a non-empty path
other than "output" yields a history that is duplicate-free, starts with
the just-added path, and has length at most max_paths; calling with the
empty path or with "output" leaves the history unchanged. -/
theorem add_path_to_history_spec (path : List Char) (recent : List (List Char))
    (maxPaths : Nat) (hnd : recent.Nodup) (hne : ¬ path = [])
    (hno : ¬ path = ("output").toList) (hmax : 0 < maxPaths) :
    (add_path_to_history path recent maxPaths).Nodup ∧
    (add_path_to_history path recent maxPaths).head? = some path ∧
    (add_path_to_history path recent maxPaths).length ≤ maxPaths ∧
    add_path_to_history [] recent maxPaths = recent ∧
    add_path_to_history (("output").toList) recent maxPaths = recent := by
  have hcond : ¬ (path = [] ∨ path = ("output").toList) := by
    intro h
    cases h with
    | inl h => exact hne h
    | inr h => exact hno h
  unfold add_path_to_history
  rw [if_neg hcond]
  refine ⟨?_, ?_, ?_, by rw [if_pos (Or.inl rfl)], by rw [if_pos (Or.inr rfl)]⟩
  · refine List.Nodup.sublist (List.take_sublist _ _) ?_
    by_cases hmem : path ∈ recent
    · rw [if_pos hmem]
      refine List.nodup_cons.mpr ⟨fun hc => ?_, hnd.erase path⟩
      exact ((List.Nodup.mem_erase_iff hnd).mp hc).1 rfl
    · rw [if_neg hmem]
      exact List.nodup_cons.mpr ⟨hmem, hnd⟩
  · obtain ⟨n, rfl⟩ : ∃ n, maxPaths = n + 1 := ⟨maxPaths - 1, by omega⟩
    rw [List.take_succ_cons]
    rfl
  · exact List.length_take_le _ _

/-- Witness for `add_path_to_history_spec` at a concrete history. -/
theorem add_path_to_history_spec_witness :
    ([("b").toList] : List (List Char)).Nodup ∧
    ¬ (("a").toList = ([] : List Char)) ∧
    ¬ (("a").toList = ("output").toList) ∧ 0 < 2 ∧
    ((add_path_to_history (("a").toList) [("b").toList] 2).Nodup ∧
     (add_path_to_history (("a").toList) [("b").toList] 2).head? = some (("a").toList) ∧
     (add_path_to_history (("a").toList) [("b").toList] 2).length ≤ 2 ∧
     add_path_to_history [] [("b").toList] 2 = [("b").toList] ∧
     add_path_to_history (("output").toList) [("b").toList] 2 = [("b").toList]) :=
  ⟨by decide, by decide, by decide, by decide,
   add_path_to_history_spec (("a").toList) [("b").toList] 2
     (by decide) (by decide) (by decide) (by decide)⟩
